import Mathlib

/-!
Verification of the numerical core of the DensityEstimation/LaplaceApproximation
notebook: the Newton mode finder findMode, the curvature evaluator getHessian,
and the Laplace Gaussian construction.  Python floats are modelled as real
numbers; the numpy double sentinel np.finfo(d).max is the exact real
(2 - 2 ^ (-52)) * 2 ^ 1023 = 2 ^ 1024 - 2 ^ 971.
-/

/-- The sigmoid function of the notebook: den = 1.0 + np.exp(-x); 1.0 / den. -/
noncomputable def sigmoid (x : ℝ) : ℝ := 1 / (1 + Real.exp (-x))

/-- The largest double-precision float, np.finfo(d).max, used by findMode as the
initial value of z_next. -/
noncomputable def dblMax : ℝ := 2 ^ 1024 - 2 ^ 971

/-- The residual y = z_cur - 20*(1 - sigmoid(20*z_cur + 4)) computed in the loop
body of findMode. -/
noncomputable def yFun (z : ℝ) : ℝ := z - 20 * (1 - sigmoid (20 * z + 4))

/-- The denominator der_y = 1 + 400*sigmoid(20*z_cur+4)*(1 - sigmoid(20*z_cur+4))
computed in the loop body of findMode. -/
noncomputable def derY (z : ℝ) : ℝ :=
  1 + 400 * sigmoid (20 * z + 4) * (1 - sigmoid (20 * z + 4))

/-- One Newton update of findMode: z_next = z_cur - y / der_y. -/
noncomputable def newtonStep (z : ℝ) : ℝ := z - yFun z / derY z

/-- The while loop of findMode.  State: (iter, z_cur, z_next); the loop runs
while iter < max_iter and np.abs(z_next - z_cur) > tol; inside, z_cur is set to
z_next when iter > 0, then y, der_y and the new z_next are computed and iter is
incremented.  Returns the final (z_cur, z_next, iter). -/
noncomputable def findModeLoop (max_iter : ℕ) (tol : ℝ) (iter : ℕ)
    (z_cur z_next : ℝ) : ℝ × ℝ × ℕ :=
  if h : iter < max_iter ∧ |z_next - z_cur| > tol then
    findModeLoop max_iter tol (iter + 1) (if 0 < iter then z_next else z_cur)
      (newtonStep (if 0 < iter then z_next else z_cur))
  else (z_cur, z_next, iter)
termination_by max_iter - iter
decreasing_by omega

/-- findMode from the notebook: run the loop from iter = 0, z_cur = z_init,
z_next = np.finfo(d).max, and return the final z_next. -/
noncomputable def findMode (z_init : ℝ) (max_iter : ℕ) (tol : ℝ) : ℝ :=
  (findModeLoop max_iter tol 0 z_init dblMax).2.1

/-- The value of the loop counter iter when findMode returns: the number of
Newton updates actually performed. -/
noncomputable def findModeIters (z_init : ℝ) (max_iter : ℕ) (tol : ℝ) : ℕ :=
  (findModeLoop max_iter tol 0 z_init dblMax).2.2

/-- getHessian from the notebook: sig_x = sigmoid(20*z+4);
400*sig_x*(1-sig_x) + 1. -/
noncomputable def getHessian (z : ℝ) : ℝ :=
  400 * sigmoid (20 * z + 4) * (1 - sigmoid (20 * z + 4)) + 1

/-- The mathematical Newton iterates: newtonIter z k is z after k updates. -/
noncomputable def newtonIter (z : ℝ) : ℕ → ℝ
  | 0 => z
  | k + 1 => newtonStep (newtonIter z k)

/-- Error taxonomy of the spec for the Laplace construction. -/
inductive LaplaceError where
  | NonConcaveModeError
deriving DecidableEq

/-- Modelled from the spec: the notebook only evaluates
q_z = norm.pdf(z, z0, 1/np.sqrt(A)) inline; the laplace_approximation API of
spec sections 4.3, 6 and 7, which rejects a non-positive precision with
NonConcaveModeError and otherwise returns the pair (mean, std) =
(z0, 1/sqrt(A)), is not implemented in src/. -/
noncomputable def laplace_approximation (z0 A : ℝ) : Except LaplaceError (ℝ × ℝ) :=
  if A ≤ 0 then Except.error LaplaceError.NonConcaveModeError
  else Except.ok (z0, 1 / Real.sqrt A)

/-! ### Basic facts about sigmoid -/

lemma sigmoid_pos (x : ℝ) : 0 < sigmoid x := by
  unfold sigmoid
  positivity

lemma sigmoid_lt_one (x : ℝ) : sigmoid x < 1 := by
  unfold sigmoid
  rw [div_lt_one (by positivity)]
  linarith [Real.exp_pos (-x)]

lemma one_sub_sigmoid (x : ℝ) :
    1 - sigmoid x = Real.exp (-x) / (1 + Real.exp (-x)) := by
  unfold sigmoid
  have h : (0:ℝ) < 1 + Real.exp (-x) := by positivity
  field_simp

lemma one_sub_sigmoid_le_exp (x : ℝ) : 1 - sigmoid x ≤ Real.exp (-x) := by
  rw [one_sub_sigmoid]
  have h := Real.exp_pos (-x)
  rw [div_le_iff₀ (by positivity)]
  nlinarith

lemma one_sub_sigmoid_pos (x : ℝ) : 0 < 1 - sigmoid x := by
  linarith [sigmoid_lt_one x]

/-! ### Numeric bounds on the exponential at the points the proofs need -/

lemma exp_four_ge : (54:ℝ) ≤ Real.exp 4 := by
  have h4 : Real.exp 4 = Real.exp 1 ^ 4 := by
    rw [← Real.exp_nat_mul]
    norm_num
  have he : (2.7182818283:ℝ) ≤ Real.exp 1 := le_of_lt Real.exp_one_gt_d9
  have : (2.7182818283:ℝ) ^ 4 ≤ Real.exp 1 ^ 4 := by
    apply pow_le_pow_left₀ (by norm_num) he
  rw [h4]
  nlinarith [this]

lemma exp_five_ge : (148:ℝ) ≤ Real.exp 5 := by
  have h5 : Real.exp 5 = Real.exp 1 ^ 5 := by
    rw [← Real.exp_nat_mul]
    norm_num
  have he : (2.7182818283:ℝ) ≤ Real.exp 1 := le_of_lt Real.exp_one_gt_d9
  have : (2.7182818283:ℝ) ^ 5 ≤ Real.exp 1 ^ 5 := by
    apply pow_le_pow_left₀ (by norm_num) he
  rw [h5]
  nlinarith [this]

lemma exp_eleven_ge : (40000:ℝ) ≤ Real.exp 11 := by
  have h11 : Real.exp 11 = Real.exp 1 ^ 11 := by
    rw [← Real.exp_nat_mul]
    norm_num
  have he : (2.7182818283:ℝ) ≤ Real.exp 1 := le_of_lt Real.exp_one_gt_d9
  have : (2.7182818283:ℝ) ^ 11 ≤ Real.exp 1 ^ 11 := by
    apply pow_le_pow_left₀ (by norm_num) he
  rw [h11]
  nlinarith [this]

lemma exp_eleven_half_ge : (200:ℝ) ≤ Real.exp (11 / 2) := by
  have hsq : Real.exp (11 / 2) * Real.exp (11 / 2) = Real.exp 11 := by
    rw [← Real.exp_add]
    norm_num
  have hpos : (0:ℝ) < Real.exp (11 / 2) := Real.exp_pos _
  nlinarith [exp_eleven_ge, hsq, hpos]

/-! ### The Newton denominator is at least one -/

lemma derY_ge_one (z : ℝ) : 1 ≤ derY z := by
  unfold derY
  nlinarith [sigmoid_pos (20 * z + 4), one_sub_sigmoid_pos (20 * z + 4)]

lemma derY_pos (z : ℝ) : 0 < derY z := lt_of_lt_of_le one_pos (derY_ge_one z)

lemma derY_ne_zero (z : ℝ) : derY z ≠ 0 := ne_of_gt (derY_pos z)

/-! ### Pointwise behaviour of one Newton update -/

lemma newtonStep_pos (z : ℝ) (hz : 0 ≤ z) : 0 < newtonStep z := by
  have hd := derY_pos z
  have hs := sigmoid_pos (20 * z + 4)
  have ht := one_sub_sigmoid_pos (20 * z + 4)
  unfold newtonStep yFun
  rw [sub_pos, div_lt_iff₀ hd]
  unfold derY
  nlinarith [mul_nonneg (mul_nonneg hz hs.le) ht.le]

lemma newtonStep_le (z : ℝ) (hz : 0 ≤ z) (hz1 : z ≤ 1 / 10) :
    newtonStep z ≤ 1 / 10 := by
  have hd := derY_pos z
  set s := sigmoid (20 * z + 4) with hs_def
  have hs0 : 0 < s := sigmoid_pos _
  have hs1 : s < 1 := sigmoid_lt_one _
  have htE : 1 - s ≤ Real.exp (-(20 * z + 4)) := one_sub_sigmoid_le_exp _
  have hmain : (z - 1 / 10) * derY z ≤ yFun z := by
    unfold derY yFun
    rw [← hs_def]
    rcases le_or_lt z (1 / 20) with hcase | hcase
    · -- here 20 z + 4 ≤ 5, use 1 - s ≤ exp (-4) ≤ 1 / 54
      have hE : Real.exp (-(20 * z + 4)) ≤ Real.exp (-4) :=
        Real.exp_le_exp.mpr (by linarith)
      have h54 : Real.exp (-4) ≤ 1 / 54 := by
        rw [Real.exp_neg]
        rw [inv_le_comm₀ (Real.exp_pos 4) (by norm_num)]
        calc (1 / 54 : ℝ)⁻¹ = 54 := by norm_num
        _ ≤ Real.exp 4 := exp_four_ge
      have ht54 : 1 - s ≤ 1 / 54 := by linarith
      nlinarith [sq_nonneg (1 - s), mul_nonneg (sub_nonneg.mpr ht54) hz,
        mul_nonneg hz (le_of_lt hs0)]
    · rcases le_or_lt z (3 / 40) with hcase2 | hcase2
      · -- here 20 z + 4 ≥ 5, use 1 - s ≤ exp (-5) ≤ 1 / 148
        have hE : Real.exp (-(20 * z + 4)) ≤ Real.exp (-5) :=
          Real.exp_le_exp.mpr (by linarith)
        have h148 : Real.exp (-5) ≤ 1 / 148 := by
          rw [Real.exp_neg]
          rw [inv_le_comm₀ (Real.exp_pos 5) (by norm_num)]
          calc (1 / 148 : ℝ)⁻¹ = 148 := by norm_num
          _ ≤ Real.exp 5 := exp_five_ge
        have ht148 : 1 - s ≤ 1 / 148 := by linarith
        nlinarith [sq_nonneg (1 - s), mul_nonneg (sub_nonneg.mpr ht148) hz,
          mul_nonneg hz (le_of_lt hs0)]
      · -- here 20 z + 4 ≥ 11/2, use 1 - s ≤ exp (-11/2) ≤ 1 / 200
        have hE : Real.exp (-(20 * z + 4)) ≤ Real.exp (-(11 / 2)) :=
          Real.exp_le_exp.mpr (by linarith)
        have h200 : Real.exp (-(11 / 2)) ≤ 1 / 200 := by
          rw [Real.exp_neg]
          rw [inv_le_comm₀ (Real.exp_pos (11 / 2)) (by norm_num)]
          calc (1 / 200 : ℝ)⁻¹ = 200 := by norm_num
          _ ≤ Real.exp (11 / 2) := exp_eleven_half_ge
        have ht200 : 1 - s ≤ 1 / 200 := by linarith
        nlinarith [sq_nonneg (1 - s), mul_nonneg (sub_nonneg.mpr ht200) hz,
          mul_nonneg (sub_nonneg.mpr (le_of_lt hs1)) (sub_nonneg.mpr hz1)]
  unfold newtonStep
  have hq : z - 1 / 10 ≤ yFun z / derY z := by
    rw [le_div_iff₀ hd]
    exact hmain
  linarith

/-! ### Unfolding the loop -/

lemma findModeLoop_eq (max_iter : ℕ) (tol : ℝ) (iter : ℕ) (z_cur z_next : ℝ) :
    findModeLoop max_iter tol iter z_cur z_next =
      if iter < max_iter ∧ |z_next - z_cur| > tol then
        findModeLoop max_iter tol (iter + 1) (if 0 < iter then z_next else z_cur)
          (newtonStep (if 0 < iter then z_next else z_cur))
      else (z_cur, z_next, iter) := by
  rw [findModeLoop]
  split
  · rfl
  · rfl

lemma findModeLoop_exit (max_iter : ℕ) (tol : ℝ) (iter : ℕ) (z_cur z_next : ℝ)
    (h : ¬(iter < max_iter ∧ |z_next - z_cur| > tol)) :
    findModeLoop max_iter tol iter z_cur z_next = (z_cur, z_next, iter) := by
  rw [findModeLoop_eq, if_neg h]

lemma findModeLoop_enter (max_iter : ℕ) (tol : ℝ) (iter : ℕ) (z_cur z_next : ℝ)
    (h : iter < max_iter ∧ |z_next - z_cur| > tol) :
    findModeLoop max_iter tol iter z_cur z_next =
      findModeLoop max_iter tol (iter + 1) (if 0 < iter then z_next else z_cur)
        (newtonStep (if 0 < iter then z_next else z_cur)) := by
  rw [findModeLoop_eq, if_pos h]

/-! ### The loop performs at most max_iter iterations and stops exactly when
the loop condition fails -/

lemma findModeLoop_count (max_iter : ℕ) (tol : ℝ) :
    ∀ fuel iter z_cur z_next, max_iter - iter ≤ fuel →
      (findModeLoop max_iter tol iter z_cur z_next).2.2 ≤ max max_iter iter ∧
      ¬((findModeLoop max_iter tol iter z_cur z_next).2.2 < max_iter ∧
        |(findModeLoop max_iter tol iter z_cur z_next).2.1 -
          (findModeLoop max_iter tol iter z_cur z_next).1| > tol) := by
  intro fuel
  induction fuel with
  | zero =>
    intro iter z_cur z_next hf
    have hexit : ¬(iter < max_iter ∧ |z_next - z_cur| > tol) := by
      intro hcond
      omega
    rw [findModeLoop_exit _ _ _ _ _ hexit]
    exact ⟨le_max_right _ _, hexit⟩
  | succ n ih =>
    intro iter z_cur z_next hf
    by_cases hcond : iter < max_iter ∧ |z_next - z_cur| > tol
    · rw [findModeLoop_enter _ _ _ _ _ hcond]
      have hm : max_iter - (iter + 1) ≤ n := by omega
      have := ih (iter + 1) (if 0 < iter then z_next else z_cur)
        (newtonStep (if 0 < iter then z_next else z_cur)) hm
      refine ⟨?_, this.2⟩
      have hmax : max max_iter (iter + 1) = max max_iter iter := by omega
      omega
    · rw [findModeLoop_exit _ _ _ _ _ hcond]
      exact ⟨le_max_right _ _, hcond⟩

/-! ### From the loop to the Newton sequence -/

lemma newtonIter_succ (z : ℝ) (k : ℕ) :
    newtonIter z (k + 1) = newtonStep (newtonIter z k) := rfl

/-- Invariant characterisation of the loop: entered at counter k with state
(z_cur, z_next) = (iterate k-1, iterate k), the loop returns the first iterate
K at which the stopping condition holds, together with its predecessor and K
itself, and no earlier iterate in [k, K) satisfies the stopping condition. -/
lemma findModeLoop_char (max_iter : ℕ) (tol z_init : ℝ) :
    ∀ fuel k, 1 ≤ k → k ≤ max_iter → max_iter - k ≤ fuel →
      ∃ K, k ≤ K ∧ K ≤ max_iter ∧
        findModeLoop max_iter tol k (newtonIter z_init (k - 1))
            (newtonIter z_init k) =
          (newtonIter z_init (K - 1), newtonIter z_init K, K) ∧
        (|newtonIter z_init K - newtonIter z_init (K - 1)| ≤ tol ∨
          K = max_iter) ∧
        ∀ j, k ≤ j → j < K →
          tol < |newtonIter z_init j - newtonIter z_init (j - 1)| := by
  intro fuel
  induction fuel with
  | zero =>
    intro k hk1 hkm hf
    have hkeq : k = max_iter := by omega
    have hexit : ¬(k < max_iter ∧
        |newtonIter z_init k - newtonIter z_init (k - 1)| > tol) := by
      intro hcond
      omega
    refine ⟨k, le_refl _, hkm, ?_, Or.inr hkeq, ?_⟩
    · rw [findModeLoop_exit _ _ _ _ _ hexit]
    · intro j hj1 hj2
      omega
  | succ n ih =>
    intro k hk1 hkm hf
    by_cases hcond : k < max_iter ∧
        |newtonIter z_init k - newtonIter z_init (k - 1)| > tol
    · rw [findModeLoop_enter _ _ _ _ _ hcond]
      have hkpos : 0 < k := hk1
      rw [if_pos hkpos]
      have hstep : newtonStep (newtonIter z_init k) = newtonIter z_init (k + 1) :=
        (newtonIter_succ z_init k).symm
      rw [hstep]
      have hpred : newtonIter z_init k = newtonIter z_init ((k + 1) - 1) := by
        norm_num
      rw [hpred]
      obtain ⟨K, hK1, hK2, hK3, hK4, hK5⟩ :=
        ih (k + 1) (by omega) (by omega) (by omega)
      refine ⟨K, by omega, hK2, hK3, hK4, ?_⟩
      intro j hj1 hj2
      rcases eq_or_lt_of_le hj1 with hj | hj
      · rw [← hj]
        exact hcond.2
      · exact hK5 j (by omega) hj2
    · refine ⟨k, le_refl _, hkm, ?_, ?_, ?_⟩
      · rw [findModeLoop_exit _ _ _ _ _ hcond]
      · rcases Nat.lt_or_ge k max_iter with hlt | hge
        · left
          by_contra habs
          exact hcond ⟨hlt, lt_of_not_ge fun hcontra => habs (by linarith)⟩
        · right
          omega
      · intro j hj1 hj2
        omega

/-- Entering the loop from the initial state: when max_iter is positive and the
sentinel passes the tolerance check, the first pass keeps z_cur = z_init and
computes z_next = newtonStep z_init. -/
lemma findModeLoop_entry (max_iter : ℕ) (tol z_init : ℝ) (h1 : 0 < max_iter)
    (h2 : tol < |dblMax - z_init|) :
    findModeLoop max_iter tol 0 z_init dblMax =
      findModeLoop max_iter tol 1 z_init (newtonStep z_init) := by
  rw [findModeLoop_enter _ _ _ _ _ ⟨h1, h2⟩]
  norm_num

/-- If the very first Newton update already lands within tol of z_init, the loop
stops after exactly one pass. -/
lemma findModeLoop_one_pass (max_iter : ℕ) (tol z_init : ℝ) (h1 : 1 ≤ max_iter)
    (h2 : tol < |dblMax - z_init|) (h3 : |newtonStep z_init - z_init| ≤ tol) :
    findModeLoop max_iter tol 0 z_init dblMax = (z_init, newtonStep z_init, 1) := by
  rw [findModeLoop_entry _ _ _ h1 h2]
  apply findModeLoop_exit
  intro hcond
  linarith [hcond.2]

/-! ### All Newton iterates from a point of [0, 1/10] stay in [0, 1/10] -/

lemma newtonIter_mem (z : ℝ) (hz0 : 0 ≤ z) (hz1 : z ≤ 1 / 10) :
    ∀ k, 0 ≤ newtonIter z k ∧ newtonIter z k ≤ 1 / 10 := by
  intro k
  induction k with
  | zero => exact ⟨hz0, hz1⟩
  | succ n ih =>
    rw [newtonIter_succ]
    exact ⟨le_of_lt (newtonStep_pos _ ih.1), newtonStep_le _ ih.1 ih.2⟩

lemma newtonIter_pos (z : ℝ) (hz0 : 0 ≤ z) (hz1 : z ≤ 1 / 10) (k : ℕ)
    (hk : 1 ≤ k) : 0 < newtonIter z k := by
  obtain ⟨j, rfl⟩ := Nat.exists_eq_add_of_le hk
  rw [Nat.add_comm, newtonIter_succ]
  exact newtonStep_pos _ (newtonIter_mem z hz0 hz1 j).1

/-! ### Small numeric facts -/

lemma exp_neg_four_le : Real.exp (-4) ≤ 1 / 54 := by
  rw [Real.exp_neg]
  rw [inv_le_comm₀ (Real.exp_pos 4) (by norm_num)]
  calc (1 / 54 : ℝ)⁻¹ = 54 := by norm_num
  _ ≤ Real.exp 4 := exp_four_ge

lemma dblMax_gt_twenty : (20:ℝ) < dblMax := by
  unfold dblMax
  norm_num

lemma abs_yFun_zero_le : |yFun 0| ≤ 20 / 54 := by
  have h4 : (20:ℝ) * 0 + 4 = 4 := by norm_num
  have hpos := one_sub_sigmoid_pos 4
  have hle : 1 - sigmoid 4 ≤ 1 / 54 :=
    le_trans (one_sub_sigmoid_le_exp 4) exp_neg_four_le
  unfold yFun
  rw [h4, zero_sub, abs_neg, abs_of_pos (by linarith)]
  linarith

lemma abs_newtonStep_zero_lt : |newtonStep 0| < 1 / 2 := by
  have hd := derY_ge_one 0
  have h1 : newtonStep 0 = -(yFun 0 / derY 0) := by
    unfold newtonStep
    ring
  rw [h1, abs_neg, abs_div, abs_of_pos (derY_pos 0)]
  have h2 : |yFun 0| / derY 0 ≤ |yFun 0| :=
    div_le_self (abs_nonneg _) hd
  linarith [abs_yFun_zero_le]

/-! ## Claim theorems -/

/-- C7: for every real iterate z, the Newton denominator
der_y = 1 + 400*sigmoid(20z+4)*(1-sigmoid(20z+4)) is at least 1, hence never
zero, so the division z_cur - y/der_y inside findMode never divides by zero and
the singular-derivative condition is unreachable for this hardcoded problem. -/
theorem derY_never_singular (z : ℝ) :
    1 ≤ derY z ∧ derY z ≠ 0 ∧ newtonStep z = z - yFun z / derY z :=
  ⟨derY_ge_one z, derY_ne_zero z, rfl⟩

/-- C8: getHessian(z) = 400*sigmoid(20z+4)*(1-sigmoid(20z+4)) + 1 is strictly
greater than 1, at most 101 (the value 101 is attained at z = -1/5), hence the
precision is positive and the Laplace standard deviation 1/sqrt(A) lies in
[1/sqrt(101), 1). -/
theorem getHessian_bounds (z : ℝ) :
    0 < getHessian z ∧ 1 < getHessian z ∧ getHessian z ≤ 101 ∧
    1 / Real.sqrt 101 ≤ 1 / Real.sqrt (getHessian z) ∧
    1 / Real.sqrt (getHessian z) < 1 ∧ getHessian (-(1 / 5)) = 101 := by
  have hs0 := sigmoid_pos (20 * z + 4)
  have hs1 := sigmoid_lt_one (20 * z + 4)
  have hA1 : 1 < getHessian z := by
    unfold getHessian
    nlinarith
  have hA101 : getHessian z ≤ 101 := by
    unfold getHessian
    nlinarith [sq_nonneg (sigmoid (20 * z + 4) - 1 / 2)]
  have hsq1 : 1 < Real.sqrt (getHessian z) := by
    have h := Real.sqrt_lt_sqrt zero_le_one hA1
    rwa [Real.sqrt_one] at h
  have hsq2 : Real.sqrt (getHessian z) ≤ Real.sqrt 101 :=
    Real.sqrt_le_sqrt hA101
  refine ⟨by linarith, hA1, hA101, ?_, ?_, ?_⟩
  · exact one_div_le_one_div_of_le (by linarith) hsq2
  · rw [div_lt_one (by linarith)]
    exact hsq1
  · have h0 : (20:ℝ) * (-(1 / 5)) + 4 = 0 := by norm_num
    unfold getHessian
    rw [h0]
    unfold sigmoid
    rw [neg_zero, Real.exp_zero]
    norm_num

/-- C10: the spec-modelled laplace_approximation raises NonConcaveModeError
exactly when the supplied precision A is non-positive, and otherwise builds the
Gaussian parameter pair (mean, std) = (z0, 1/sqrt(A)). -/
theorem laplace_approximation_spec (z0 A : ℝ) :
    (A ≤ 0 →
      laplace_approximation z0 A =
        Except.error LaplaceError.NonConcaveModeError) ∧
    (0 < A →
      laplace_approximation z0 A = Except.ok (z0, 1 / Real.sqrt A)) := by
  constructor
  · intro h
    unfold laplace_approximation
    rw [if_pos h]
  · intro h
    unfold laplace_approximation
    rw [if_neg (not_le.mpr h)]

/-- Witness for C10: at precision -1 the error is raised, at precision 4 the
Gaussian pair is returned. -/
theorem laplace_approximation_spec_witness :
    laplace_approximation 0 (-1) =
      Except.error LaplaceError.NonConcaveModeError ∧
    laplace_approximation 0 4 = Except.ok ((0:ℝ), 1 / Real.sqrt 4) :=
  ⟨(laplace_approximation_spec 0 (-1)).1 (by norm_num),
   (laplace_approximation_spec 0 4).2 (by norm_num)⟩

/-- C2: with max_iter = 0 the loop body never runs and findMode returns the
sentinel initial z_next = np.finfo(d).max = 2^1024 - 2^971, not z_init; in
particular findMode(0, 0, 1e-6) is not 0. -/
theorem findMode_zero_max_iter :
    (∀ z_init tol : ℝ, findMode z_init 0 tol = dblMax) ∧
    findMode 0 0 (1 / 1000000) ≠ 0 := by
  have hall : ∀ z_init tol : ℝ, findMode z_init 0 tol = dblMax := by
    intro z tol
    unfold findMode
    rw [findModeLoop_exit]
    intro hcond
    exact absurd hcond.1 (by norm_num)
  refine ⟨hall, ?_⟩
  rw [hall 0 (1 / 1000000)]
  unfold dblMax
  norm_num

/-- C4: findMode always terminates with the loop counter at most max_iter (so
at most max_iter Newton updates are performed), and at exit the loop condition
fails: either the last step was within tol or the counter reached max_iter. -/
theorem findMode_terminates (z_init : ℝ) (max_iter : ℕ) (tol : ℝ) :
    findModeIters z_init max_iter tol ≤ max_iter ∧
    (|(findModeLoop max_iter tol 0 z_init dblMax).2.1 -
        (findModeLoop max_iter tol 0 z_init dblMax).1| ≤ tol ∨
      findModeIters z_init max_iter tol = max_iter) := by
  obtain ⟨h1, h2⟩ :=
    findModeLoop_count max_iter tol max_iter 0 z_init dblMax (by omega)
  have hle : findModeIters z_init max_iter tol ≤ max_iter := by
    unfold findModeIters
    omega
  refine ⟨hle, ?_⟩
  by_cases hK : (findModeLoop max_iter tol 0 z_init dblMax).2.2 < max_iter
  · left
    by_contra habs
    exact h2 ⟨hK, lt_of_not_ge fun hc => habs (by linarith)⟩
  · right
    unfold findModeIters at hle ⊢
    omega

lemma abs_dblMax_sub_zero : |dblMax - (0:ℝ)| = dblMax := by
  rw [sub_zero]
  exact abs_of_pos (by linarith [dblMax_gt_twenty])

/-- C1 (amended): provided the sentinel check passes, i.e.
tol < |np.finfo(d).max - z_init|, findMode runs the Newton iteration
z_{k+1} = z_k - y(z_k)/y_der(z_k) from z_0 = z_init and returns the iterate
z_K at the first index K at which the stopping condition (step within tol, or
K = max_iter) holds. -/
theorem findMode_computes_newton (z_init tol : ℝ) (max_iter : ℕ)
    (hm : 1 ≤ max_iter) (hsent : tol < |dblMax - z_init|) :
    ∃ K, 1 ≤ K ∧ K ≤ max_iter ∧
      findMode z_init max_iter tol = newtonIter z_init K ∧
      findModeIters z_init max_iter tol = K ∧
      (|newtonIter z_init K - newtonIter z_init (K - 1)| ≤ tol ∨
        K = max_iter) ∧
      ∀ j, 1 ≤ j → j < K →
        tol < |newtonIter z_init j - newtonIter z_init (j - 1)| := by
  obtain ⟨K, hK1, hK2, hK3, hK4, hK5⟩ :=
    findModeLoop_char max_iter tol z_init max_iter 1 (le_refl 1) hm (by omega)
  have hK3e : findModeLoop max_iter tol 1 z_init (newtonStep z_init) =
      (newtonIter z_init (K - 1), newtonIter z_init K, K) := hK3
  refine ⟨K, hK1, hK2, ?_, ?_, hK4, hK5⟩
  · unfold findMode
    rw [findModeLoop_entry _ _ _ (by omega) hsent, hK3e]
  · unfold findModeIters
    rw [findModeLoop_entry _ _ _ (by omega) hsent, hK3e]

/-- Witness for C1: at z_init = 0, max_iter = 1, tol = 1e-6 the hypotheses hold
and findMode returns a Newton iterate as characterised. -/
theorem findMode_computes_newton_witness :
    (1 ≤ 1 ∧ (1 / 1000000 : ℝ) < |dblMax - 0|) ∧
    ∃ K, 1 ≤ K ∧ K ≤ 1 ∧
      findMode 0 1 (1 / 1000000) = newtonIter 0 K ∧
      findModeIters 0 1 (1 / 1000000) = K ∧
      (|newtonIter 0 K - newtonIter 0 (K - 1)| ≤ 1 / 1000000 ∨ K = 1) ∧
      ∀ j, 1 ≤ j → j < K →
        1 / 1000000 < |newtonIter 0 j - newtonIter 0 (j - 1)| := by
  have hsent : (1 / 1000000 : ℝ) < |dblMax - 0| := by
    rw [abs_dblMax_sub_zero]
    linarith [dblMax_gt_twenty]
  exact ⟨⟨le_refl 1, hsent⟩,
    findMode_computes_newton 0 (1 / 1000000) 1 (le_refl 1) hsent⟩

/-- Counterexample to C1 as stated: at the finite initial guess
z_init = np.finfo(d).max, with max_iter = 1 and tol = 1e-6, the sentinel check
|z_next - z_cur| > tol fails immediately, so findMode performs no Newton
update and returns the sentinel itself, which differs from the first Newton
iterate z_1 = newtonStep z_init that the claim says it returns. -/
theorem findMode_sentinel_counterexample :
    findMode dblMax 1 (1 / 1000000) = dblMax ∧
    findModeIters dblMax 1 (1 / 1000000) = 0 ∧
    newtonStep dblMax < dblMax := by
  have hexit : ¬((0:ℕ) < 1 ∧ |dblMax - dblMax| > (1 / 1000000 : ℝ)) := by
    intro h
    rw [sub_self, abs_zero] at h
    linarith [h.2]
  refine ⟨?_, ?_, ?_⟩
  · unfold findMode
    rw [findModeLoop_exit _ _ _ _ _ hexit]
  · unfold findModeIters
    rw [findModeLoop_exit _ _ _ _ _ hexit]
  · have hs1 := sigmoid_pos (20 * dblMax + 4)
    have hs2 := sigmoid_lt_one (20 * dblMax + 4)
    have hy : 0 < yFun dblMax := by
      unfold yFun
      nlinarith [dblMax_gt_twenty]
    have hq : 0 < yFun dblMax / derY dblMax := div_pos hy (derY_pos _)
    unfold newtonStep
    linarith

/-- Bounds on the result of the default run findMode(0, 25, 1e-6): the loop
starts inside [0, 1/10] and every Newton update stays there, so the returned
value is a positive real at most 1/10. -/
lemma findMode_default_run_bounds :
    0 < findMode 0 25 (1 / 1000000) ∧ findMode 0 25 (1 / 1000000) ≤ 1 / 10 := by
  have hsent : (1 / 1000000 : ℝ) < |dblMax - 0| := by
    rw [abs_dblMax_sub_zero]
    linarith [dblMax_gt_twenty]
  obtain ⟨K, hK1, hK2, hK3, _, _⟩ :=
    findModeLoop_char 25 (1 / 1000000) 0 25 1 (le_refl 1) (by norm_num)
      (by omega)
  have hK3e : findModeLoop 25 (1 / 1000000) 1 0 (newtonStep 0) =
      (newtonIter 0 (K - 1), newtonIter 0 K, K) := hK3
  have hres : findMode 0 25 (1 / 1000000) = newtonIter 0 K := by
    unfold findMode
    rw [findModeLoop_entry _ _ _ (by norm_num) hsent, hK3e]
  rw [hres]
  exact ⟨newtonIter_pos 0 (le_refl 0) (by norm_num) K hK1,
    (newtonIter_mem 0 (le_refl 0) (by norm_num) K).2⟩

/-- C3 (amended): the worked example findMode(0) with the default max_iter = 25
and tol = 1e-6 returns a mode z0 with 0 < z0 <= 1/10 (numerically about
0.0775, the root of z = 20*(1 - sigmoid(20z+4))), not a value near 0.1311;
getHessian at the returned z0 is 1 + 400*sigmoid(20*z0+4)*(1-sigmoid(20*z0+4)),
the precision of the Laplace Gaussian. -/
theorem findMode_worked_example :
    0 < findMode 0 25 (1 / 1000000) ∧ findMode 0 25 (1 / 1000000) ≤ 1 / 10 ∧
    getHessian (findMode 0 25 (1 / 1000000)) =
      1 + 400 * sigmoid (20 * findMode 0 25 (1 / 1000000) + 4) *
        (1 - sigmoid (20 * findMode 0 25 (1 / 1000000) + 4)) := by
  obtain ⟨h1, h2⟩ := findMode_default_run_bounds
  refine ⟨h1, h2, ?_⟩
  unfold getHessian
  ring

/-- Counterexample to C3 as stated: the mode returned by findMode(0, 25, 1e-6)
is at most 1/10, hence more than 1e-4 away from 0.1311. -/
theorem findMode_worked_example_counterexample :
    findMode 0 25 (1 / 1000000) ≤ 1 / 10 ∧
    1 / 10000 < |findMode 0 25 (1 / 1000000) - 1311 / 10000| := by
  obtain ⟨h1, h2⟩ := findMode_default_run_bounds
  refine ⟨h2, ?_⟩
  rw [abs_of_nonpos (by linarith)]
  linarith

/-- C5: if z0 is a within-tol fixed point of the Newton update (as a mode
returned by a converged run is), and tol passes the sentinel check, then
findMode(z0, max_iter, tol) stops after exactly one iteration and returns
newtonStep z0, which is within tol of z0. -/
theorem findMode_idempotent_on_mode (z0 tol : ℝ) (max_iter : ℕ)
    (hm : 1 ≤ max_iter) (hsent : tol < |dblMax - z0|)
    (hfix : |newtonStep z0 - z0| ≤ tol) :
    findMode z0 max_iter tol = newtonStep z0 ∧
    |findMode z0 max_iter tol - z0| ≤ tol ∧
    findModeIters z0 max_iter tol = 1 := by
  have h := findModeLoop_one_pass max_iter tol z0 hm hsent hfix
  refine ⟨?_, ?_, ?_⟩
  · unfold findMode
    rw [h]
  · unfold findMode
    rw [h]
    exact hfix
  · unfold findModeIters
    rw [h]

/-- Witness for C5: z0 = 0 is a within-tol fixed point for tol = 1, and the
second run stops after one iteration within tol of z0. -/
theorem findMode_idempotent_on_mode_witness :
    ((1 ≤ 25 ∧ (1:ℝ) < |dblMax - 0|) ∧ |newtonStep 0 - 0| ≤ 1) ∧
    (findMode 0 25 1 = newtonStep 0 ∧ |findMode 0 25 1 - 0| ≤ 1 ∧
      findModeIters 0 25 1 = 1) := by
  have hsent : (1:ℝ) < |dblMax - 0| := by
    rw [abs_dblMax_sub_zero]
    linarith [dblMax_gt_twenty]
  have hfix : |newtonStep 0 - 0| ≤ 1 := by
    rw [sub_zero]
    linarith [abs_newtonStep_zero_lt]
  exact ⟨⟨⟨by norm_num, hsent⟩, hfix⟩,
    findMode_idempotent_on_mode 0 1 25 (by norm_num) hsent hfix⟩

/-- C9 (amended): provided the sentinel check passes
(tol < |np.finfo(d).max - z_init|), a tol larger than the first Newton step
makes findMode stop after exactly one iteration, returning the first iterate. -/
theorem findMode_one_iteration_large_tol (z_init tol : ℝ) (max_iter : ℕ)
    (hm : 1 ≤ max_iter) (hsent : tol < |dblMax - z_init|)
    (hstep : |newtonStep z_init - z_init| < tol) :
    findModeIters z_init max_iter tol = 1 ∧
    findMode z_init max_iter tol = newtonStep z_init := by
  have h := findModeLoop_one_pass max_iter tol z_init hm hsent hstep.le
  constructor
  · unfold findModeIters
    rw [h]
  · unfold findMode
    rw [h]

/-- Witness for C9: at z_init = 0, max_iter = 25, tol = 1 the first step is
smaller than tol and findMode stops after exactly one iteration. -/
theorem findMode_one_iteration_large_tol_witness :
    ((1 ≤ 25 ∧ (1:ℝ) < |dblMax - 0|) ∧ |newtonStep 0 - 0| < 1) ∧
    (findModeIters 0 25 1 = 1 ∧ findMode 0 25 1 = newtonStep 0) := by
  have hsent : (1:ℝ) < |dblMax - 0| := by
    rw [abs_dblMax_sub_zero]
    linarith [dblMax_gt_twenty]
  have hstep : |newtonStep 0 - 0| < 1 := by
    rw [sub_zero]
    linarith [abs_newtonStep_zero_lt]
  exact ⟨⟨⟨by norm_num, hsent⟩, hstep⟩,
    findMode_one_iteration_large_tol 0 1 25 (by norm_num) hsent hstep⟩

/-- Counterexample to C9 as stated: with tol = np.finfo(d).max, the tolerance
exceeds the first Newton step from z_init = 0, yet findMode performs zero
iterations (not one), because the sentinel check fails at once. -/
theorem findMode_huge_tol_counterexample :
    |newtonStep 0 - 0| < dblMax ∧ findModeIters 0 25 dblMax = 0 := by
  have hdp : (0:ℝ) < dblMax := by linarith [dblMax_gt_twenty]
  constructor
  · rw [sub_zero]
    linarith [abs_newtonStep_zero_lt, dblMax_gt_twenty]
  · unfold findModeIters
    have hexit : ¬((0:ℕ) < 25 ∧ |dblMax - (0:ℝ)| > dblMax) := by
      intro h
      rw [abs_dblMax_sub_zero] at h
      exact lt_irrefl _ h.2
    rw [findModeLoop_exit _ _ _ _ _ hexit]
